import Mathlib

/-!
Verification development for the chiveit asynchronous chive-analysis pipeline.

The embedding covers:
* the deterministic scoring engine (`scoreChiveAnalysis`, TypeScript rubric file);
* the worker's response-parsing and job-processing logic (`worker/worker.js`);
* the asynchronous submission endpoint (`/api/analyze-async` in `server/index.ts`);
* a small transition system combining submission and worker steps over the
  Redis-backed job/result store and FIFO queue.

JavaScript numbers are modelled as exact rationals (`ℚ`): none of the numeric
paths verified here depend on binary floating-point rounding, and JSON.parse
can produce neither NaN nor infinities, so `Number.isFinite` checks are
vacuously true in the model.  JavaScript `Math.round` is round-half-up, which
is Mathlib's `round`; `Number(x.toFixed(2))` on the non-negative values that
occur here is round-half-up at two decimals.
-/

namespace Chiveit

/-! ## Data model of the scoring engine (TypeScript rubric source) -/

/-- One entry of the 3x3 region grid produced by the vision model.  The label
is `Option String`: `none` models an absent (or non-string) JSON field, which
is exactly what the source's `typeof r.regionCutQualityLabel === 'string'`
check guards against. -/
structure RegionMetrics where
  id : String
  regionAverageThicknessMm : Option ℚ
  regionThicknessStdDevMm : Option ℚ
  regionCutQualityLabel : Option String
deriving DecidableEq

/-- The `regions` field of the input as the JavaScript code can actually see
it: absent (`undefined`), present but not an array, or an array whose entries
may themselves be `null`/falsy (the source filter starts with `r && ...`). -/
inductive RegionsField where
  | absent : RegionsField
  | notArray : RegionsField
  | arr (entries : List (Option RegionMetrics)) : RegionsField
deriving DecidableEq

/-- `BaseChiveMetrics` (the spec's RawMetrics): raw per-image metrics returned
by the external analysis service.  `cutQualityLabel` is `Option String` with
`none` modelling a non-string runtime value, matching the source's
`typeof cutQualityLabel === 'string'` check. -/
structure BaseChiveMetrics where
  averageThicknessMm : Option ℚ
  thicknessStdDevMm : Option ℚ
  cutQualityLabel : Option String
  rawNotes : Option String
  regions : RegionsField
deriving DecidableEq

/-- `ScoredChiveMetrics` (the spec's ScoredMetrics).  `overallScore` is an
integer because it is produced by `Math.round`. -/
structure ScoredChiveMetrics where
  thicknessConsistencyScore : Option ℚ
  cutQualityScore : Option ℚ
  overallScore : Option ℤ
  notes : String
deriving DecidableEq

/-- `Array.isArray(regions) ? regions : []` from the source. -/
def regionList : RegionsField → List (Option RegionMetrics)
  | .arr l => l
  | _ => []

/-- The filter predicate
`(r) => r && typeof r.regionCutQualityLabel === 'string' && r.regionCutQualityLabel !== 'no_chives'`. -/
def regionHasChives : Option RegionMetrics → Bool
  | none => false
  | some r =>
    match r.regionCutQualityLabel with
    | some label => if label = "no_chives" then false else true
    | none => false

/-- `regionsWithChives` from the source: the active regions. -/
def activeRegions (base : BaseChiveMetrics) : List (Option RegionMetrics) :=
  (regionList base.regions).filter regionHasChives

/-- Truthiness of `rawNotes && rawNotes.trim().length` from the source. -/
def rawNotesNonBlank : Option String → Bool
  | some s => !(s.trim.isEmpty)
  | none => false

/-- Guard C condition from the source:
`typeof averageThicknessMm === 'number' && (averageThicknessMm <= 0 || averageThicknessMm > 5)`. -/
def guardCTriggered : Option ℚ → Bool
  | some a => if a ≤ 0 then true else if 5 < a then true else false
  | none => false

/-- `Number(x.toFixed(2))`: rounding to two decimal places, half up (the
values rounded in the source are non-negative, where JavaScript ties also go
up). -/
def toFixed2 (q : ℚ) : ℚ := ((round (q * 100) : ℤ) : ℚ) / 100

/-- JavaScript `toLowerCase()`, modelled character by character (the labels
compared by the scoring engine are ASCII, where this agrees with JS). -/
def jsToLower (s : String) : String := String.mk (s.data.map Char.toLower)

/-- The cut-quality label map from the source (after `toLowerCase()`):
clean -> 1.0, mixed -> 0.7, ragged -> 0.35, anything else -> 0.5. -/
def cutLabelScore (label : String) : ℚ :=
  if jsToLower label = "clean" then 1
  else if jsToLower label = "mixed" then 0.7
  else if jsToLower label = "ragged" then 0.35
  else 0.5

/-- The all-null early return shared by the three anti-cheat guards. -/
def allNull (notes : String) : ScoredChiveMetrics :=
  { thicknessConsistencyScore := none
    cutQualityScore := none
    overallScore := none
    notes := notes }

/-- The Guard A note: prefixed by `rawNotes` when it is non-blank. -/
def noChivesNote (rawNotes : Option String) : String :=
  if rawNotesNonBlank rawNotes then
    rawNotes.getD "" ++ " (No regions with chives detected; score not computed.)"
  else
    "No regions with chives detected; score not computed."

/-- The scoring block executed once all three guards have passed (the tail of
`scoreChiveAnalysis` in the source). -/
def scoreCompute (base : BaseChiveMetrics) : ScoredChiveMetrics :=
  let thicknessConsistencyScore : Option ℚ :=
    match base.thicknessStdDevMm with
    | some s => some (toFixed2 (max 0 (1 - s / 1.5)))
    | none => none
  let cutQualityScore : Option ℚ :=
    match base.cutQualityLabel with
    | some label => some (cutLabelScore label)
    | none => none
  let consistency := thicknessConsistencyScore.getD 0.5
  let quality := cutQualityScore.getD 0.5
  let overallScore : ℤ := round ((consistency * 0.6 + quality * 0.4) * 100)
  let notes :=
    if rawNotesNonBlank base.rawNotes then base.rawNotes.getD ""
    else "Scored based on thickness uniformity and cleanliness of cuts."
  { thicknessConsistencyScore := thicknessConsistencyScore
    cutQualityScore := cutQualityScore
    overallScore := some overallScore
    notes := notes }

/-- `scoreChiveAnalysis`: the scoring engine, translated clause by clause from
the TypeScript source. -/
def scoreChiveAnalysis (base : BaseChiveMetrics) : ScoredChiveMetrics :=
  if (activeRegions base).length = 0 then
    allNull (noChivesNote base.rawNotes)
  else if (activeRegions base).length = 1 then
    allNull "Insufficient chive coverage (only one region contains chives); score not computed."
  else if guardCTriggered base.averageThicknessMm then
    allNull "Model reported an implausible average thickness for chives; score not computed."
  else
    scoreCompute base

/-! ## Concrete fixtures used by witnesses -/

/-- A region whose label is `clean` (an active region). -/
def regionClean : Option RegionMetrics :=
  some { id := "r1c1", regionAverageThicknessMm := none,
         regionThicknessStdDevMm := none, regionCutQualityLabel := some "clean" }

/-- A region entry that is present but has no (string) label. -/
def regionNoLabel : Option RegionMetrics :=
  some { id := "r2c2", regionAverageThicknessMm := none,
         regionThicknessStdDevMm := none, regionCutQualityLabel := none }

/-- A region labelled `no_chives` (inactive). -/
def regionNoChives : Option RegionMetrics :=
  some { id := "r3c3", regionAverageThicknessMm := none,
         regionThicknessStdDevMm := none, regionCutQualityLabel := some "no_chives" }

/-- Input with no `regions` field at all. -/
def witnessBaseGuardA : BaseChiveMetrics :=
  { averageThicknessMm := none, thicknessStdDevMm := none,
    cutQualityLabel := none, rawNotes := none, regions := .absent }

/-- Input passing all guards, with zero standard deviation. -/
def witnessBaseOk : BaseChiveMetrics :=
  { averageThicknessMm := none, thicknessStdDevMm := some 0,
    cutQualityLabel := some "clean", rawNotes := none,
    regions := .arr [regionClean, regionClean] }

/-- Input passing all guards matching the spec's worked example
(`thicknessStdDevMm = 0.75`, `cutQualityLabel = "clean"`). -/
def witnessBaseEx : BaseChiveMetrics :=
  { averageThicknessMm := none, thicknessStdDevMm := some 0.75,
    cutQualityLabel := some "clean", rawNotes := none,
    regions := .arr [regionClean, regionClean] }

/-- Malformed input: a `null` array entry, an entry without a label, and a
`no_chives` entry - no active region anywhere. -/
def witnessBaseMalformed : BaseChiveMetrics :=
  { averageThicknessMm := none, thicknessStdDevMm := some 1,
    cutQualityLabel := some "clean", rawNotes := some "model notes",
    regions := .arr [none, regionNoLabel, regionNoChives] }

/-! ## JSON values and `JSON.parse` (modelled from ECMA-404, the grammar the
JavaScript builtin implements; the worker and the Grok client both run
`JSON.parse` on the text matched by the regex `/\x7b[\s\S]*\x7d/`). -/

/-- JSON values.  Numbers are exact rationals (every ECMA-404 numeral denotes
a rational; the claims verified here do not depend on float rounding). -/
inductive Json where
  | null : Json
  | boolean (b : Bool) : Json
  | num (q : ℚ) : Json
  | str (s : String) : Json
  | arr (elems : List Json) : Json
  | obj (members : List (String × Json)) : Json

/-- The opening-brace character. -/
def lbrace : Char := Char.ofNat 123

/-- The closing-brace character. -/
def rbrace : Char := Char.ofNat 125

/-- JSON whitespace: space, tab, line feed, carriage return. -/
def isJsonWs (c : Char) : Bool :=
  c == ' ' || c == '\t' || c == '\n' || c == '\r'

/-- Skip leading JSON whitespace. -/
def skipWs : List Char → List Char
  | [] => []
  | c :: cs => if isJsonWs c then skipWs cs else c :: cs

/-- Numeric value of an ASCII digit. -/
def digitVal (c : Char) : Nat := c.toNat - 48

/-- Split a maximal run of ASCII digits off the front. -/
def takeDigits : List Char → List Char × List Char
  | [] => ([], [])
  | c :: cs =>
    if c.isDigit then
      let p := takeDigits cs
      (c :: p.1, p.2)
    else ([], c :: cs)

/-- Digits to a natural number. -/
def digitsToNat (ds : List Char) : Nat :=
  ds.foldl (fun acc c => acc * 10 + digitVal c) 0

/-- Optional fraction part of a JSON number: digits and their count. -/
def parseFrac : List Char → Option (Nat × Nat × List Char)
  | '.' :: r =>
    let p := takeDigits r
    if p.1.isEmpty then none else some (digitsToNat p.1, p.1.length, p.2)
  | cs => some (0, 0, cs)

/-- Signed digits of an exponent part. -/
def parseExpRest (cs : List Char) : Option (ℤ × List Char) :=
  let sp : ℤ × List Char :=
    match cs with
    | '+' :: r => (1, r)
    | '-' :: r => (-1, r)
    | _ => (1, cs)
  let p := takeDigits sp.2
  if p.1.isEmpty then none else some (sp.1 * digitsToNat p.1, p.2)

/-- Optional exponent part of a JSON number. -/
def parseExp : List Char → Option (ℤ × List Char)
  | 'e' :: r => parseExpRest r
  | 'E' :: r => parseExpRest r
  | cs => some (0, cs)

/-- Assemble a JSON number from sign, integer part and the remaining text. -/
def finishNumber (sgn : ℚ) (ipart : Nat) (cs : List Char) :
    Option (ℚ × List Char) :=
  match parseFrac cs with
  | none => none
  | some (fnum, flen, cs2) =>
    match parseExp cs2 with
    | none => none
    | some (e, cs3) =>
      some (sgn * ((ipart : ℚ) + (fnum : ℚ) / (10 : ℚ) ^ flen) * (10 : ℚ) ^ e, cs3)

/-- ECMA-404 number grammar: `-? (0 | [1-9][0-9]*) frac? exp?`. -/
def parseNumber (cs : List Char) : Option (ℚ × List Char) :=
  let sp : ℚ × List Char :=
    match cs with
    | '-' :: r => (-1, r)
    | _ => (1, cs)
  match sp.2 with
  | [] => none
  | c :: r =>
    if c = '0' then finishNumber sp.1 0 r
    else if c.isDigit then
      let p := takeDigits r
      finishNumber sp.1 (digitsToNat (c :: p.1)) p.2
    else none

/-- Hexadecimal digit value. -/
def parseHexDigit (c : Char) : Option Nat :=
  if c.isDigit then some (digitVal c)
  else if 'a' ≤ c ∧ c ≤ 'f' then some (c.toNat - 97 + 10)
  else if 'A' ≤ c ∧ c ≤ 'F' then some (c.toNat - 65 + 10)
  else none

/-- Body of a JSON string after the opening quote: returns the decoded
characters and the text following the closing quote.  `\u` escapes are mapped
through `Char.ofNat` (surrogate code points fall back like `Char.ofNat`
does; only validity matters for the claims below). -/
def parseStringBody (fuel : Nat) (cs : List Char) :
    Option (List Char × List Char) :=
  match fuel, cs with
  | 0, _ => none
  | _, [] => none
  | f + 1, c :: r =>
    if c = '"' then some ([], r)
    else if c = '\\' then
      match r with
      | [] => none
      | e :: r2 =>
        let cont : Char → List Char → Option (List Char × List Char) :=
          fun ch rest =>
            match parseStringBody f rest with
            | some (s, r3) => some (ch :: s, r3)
            | none => none
        if e = '"' then cont '"' r2
        else if e = '\\' then cont '\\' r2
        else if e = '/' then cont '/' r2
        else if e = 'b' then cont (Char.ofNat 8) r2
        else if e = 'f' then cont (Char.ofNat 12) r2
        else if e = 'n' then cont '\n' r2
        else if e = 'r' then cont '\r' r2
        else if e = 't' then cont '\t' r2
        else if e = 'u' then
          match r2 with
          | h1 :: h2 :: h3 :: h4 :: r3 =>
            match parseHexDigit h1, parseHexDigit h2,
                  parseHexDigit h3, parseHexDigit h4 with
            | some a, some b, some c2, some d =>
              cont (Char.ofNat (((a * 16 + b) * 16 + c2) * 16 + d)) r3
            | _, _, _, _ => none
          | _ => none
        else none
    else if c.toNat < 32 then none
    else
      match parseStringBody f r with
      | some (s, r3) => some (c :: s, r3)
      | none => none

mutual

/-- Fuel-bounded recursive-descent JSON value parser. -/
def parseValue : Nat → List Char → Option (Json × List Char)
  | 0, _ => none
  | fuel + 1, cs =>
    match skipWs cs with
    | [] => none
    | c :: r =>
      if c = lbrace then parseObjectStart fuel r
      else if c = '[' then parseArrayStart fuel r
      else if c = '"' then
        match parseStringBody (r.length + 1) r with
        | some (s, r2) => some (.str (String.mk s), r2)
        | none => none
      else if c = 't' then
        match r with
        | 'r' :: 'u' :: 'e' :: r2 => some (.boolean true, r2)
        | _ => none
      else if c = 'f' then
        match r with
        | 'a' :: 'l' :: 's' :: 'e' :: r2 => some (.boolean false, r2)
        | _ => none
      else if c = 'n' then
        match r with
        | 'u' :: 'l' :: 'l' :: r2 => some (.null, r2)
        | _ => none
      else
        match parseNumber (c :: r) with
        | some (q, r2) => some (.num q, r2)
        | none => none

/-- After an opening brace: empty object or member list. -/
def parseObjectStart : Nat → List Char → Option (Json × List Char)
  | 0, _ => none
  | fuel + 1, cs =>
    match skipWs cs with
    | [] => none
    | c :: r => if c = rbrace then some (.obj [], r) else parseMembers fuel (c :: r) []

/-- Comma-separated `"key": value` members up to the closing brace. -/
def parseMembers : Nat → List Char → List (String × Json) → Option (Json × List Char)
  | 0, _, _ => none
  | fuel + 1, cs, acc =>
    match skipWs cs with
    | '"' :: r =>
      match parseStringBody (r.length + 1) r with
      | some (k, r2) =>
        match skipWs r2 with
        | ':' :: r3 =>
          match parseValue fuel r3 with
          | some (v, r4) =>
            match skipWs r4 with
            | ',' :: r5 => parseMembers fuel r5 (acc ++ [(String.mk k, v)])
            | c :: r5 =>
              if c = rbrace then some (.obj (acc ++ [(String.mk k, v)]), r5)
              else none
            | [] => none
          | none => none
        | _ => none
      | none => none
    | _ => none

/-- After an opening bracket: empty array or element list. -/
def parseArrayStart : Nat → List Char → Option (Json × List Char)
  | 0, _ => none
  | fuel + 1, cs =>
    match skipWs cs with
    | [] => none
    | c :: r => if c = ']' then some (.arr [], r) else parseElems fuel (c :: r) []

/-- Comma-separated array elements up to the closing bracket. -/
def parseElems : Nat → List Char → List Json → Option (Json × List Char)
  | 0, _, _ => none
  | fuel + 1, cs, acc =>
    match parseValue fuel cs with
    | some (v, r) =>
      match skipWs r with
      | ',' :: r2 => parseElems fuel r2 (acc ++ [v])
      | ']' :: r2 => some (.arr (acc ++ [v]), r2)
      | _ => none
    | none => none

end

/-- `JSON.parse`: a single JSON value, with surrounding whitespace, and
nothing else.  The supplied fuel exceeds what any input of this length can
consume, so running out of fuel is unreachable. -/
def jsonParseFull (cs : List Char) : Except String Json :=
  match parseValue (3 * cs.length + 8) cs with
  | some (v, rest) =>
    if (skipWs rest).isEmpty then .ok v
    else .error "Unexpected non-whitespace character after JSON data"
  | none => .error "Unexpected token in JSON"

/-- Whether a JSON value is an object. -/
def Json.isObj : Json → Bool
  | .obj _ => true
  | _ => false

/-- Whether a character list parses (entirely) as a JSON object. -/
def parsesAsJsonObject (cs : List Char) : Bool :=
  match jsonParseFull cs with
  | .ok v => v.isObj
  | .error _ => false

/-! ## The worker's response-parsing step -/

/-- `content.match(/\x7b[\s\S]*\x7d/)` from the worker: the regex is greedy,
so the (leftmost) match runs from the first opening brace to the last closing
brace of the whole text.  `dropWhile` to the first opening brace gives the
match start; dropping the reversed tail to the last closing brace gives the
match end; no match when no closing brace follows an opening brace. -/
def regexMatchBraces (cs : List Char) : Option (List Char) :=
  let fromBrace := cs.dropWhile (fun c => !(c == lbrace))
  let m := (fromBrace.reverse.dropWhile (fun c => !(c == rbrace))).reverse
  if m.isEmpty then none else some m

/-- The worker's parse step (worker.js lines 101&ndash;107): regex match, then
`JSON.parse` on the matched text.  Mirrors `analyzeChiveImageWithGrok` in the
Grok client, which runs the same regex and parse. -/
def parseStepModel (text : String) : Except String Json :=
  match regexMatchBraces text.data with
  | none => .error "No JSON object found in response"
  | some m => jsonParseFull m

/-! ## Store, jobs, results, and the worker (worker.js / server index.ts) -/

/-- Job lifecycle status. -/
inductive JobStatus where
  | pending : JobStatus
  | completed : JobStatus
  | failed : JobStatus
deriving DecidableEq

/-- A job record, as serialized into the store at `analysis:jobs:{jobId}` and
pushed onto `analysis:queue` (queue entries round-trip through
`JSON.stringify`/`JSON.parse`, modelled as the record itself). -/
structure Job where
  jobId : String
  imageUrl : String
  mimeType : String
  submittedBy : String
  subreddit : String
  postId : String
  createdAt : Nat
  status : JobStatus
deriving DecidableEq

/-- Terminal status of a result record. -/
inductive ResultStatus where
  | completed : ResultStatus
  | failed : ResultStatus
deriving DecidableEq

/-- A result record, as stored at `analysis:results:{jobId}`: `result` is the
parsed raw JSON on success, `error` the message on failure. -/
structure ResultRecord where
  jobId : String
  status : ResultStatus
  result : Option Json
  error : Option String
  processedAt : Nat

/-- The Redis store restricted to the two key families the pipeline uses.
TTLs are not modelled (no claim concerns expiry). -/
structure Store where
  jobs : String → Option Job
  results : String → Option ResultRecord

/-- Store with no entries. -/
def emptyStore : Store :=
  { jobs := fun _ => none, results := fun _ => none }

/-- `redis.set` on a job key. -/
def setJob (st : Store) (id : String) (j : Job) : Store :=
  { st with jobs := fun k => if k = id then some j else st.jobs k }

/-- `redis.set` on a result key. -/
def setResult (st : Store) (id : String) (r : ResultRecord) : Store :=
  { st with results := fun k => if k = id then some r else st.results k }

/-- Outcome of the worker's external interactions for one job, up to the
point where the response text is in hand.  `fetchNotOk`/`fetchThrow` cover
the image fetch, `apiNotOk`/`apiThrow` the X.AI call, `noContent` a response
without `choices[0].message.content`, and `content` a response text (the
parse step then runs on it). -/
inductive FetchResult where
  | fetchNotOk (statusText : String) : FetchResult
  | fetchThrow (msg : String) : FetchResult
  | apiNotOk (status : Nat) (errorText : String) : FetchResult
  | apiThrow (msg : String) : FetchResult
  | noContent : FetchResult
  | content (text : String) : FetchResult

/-- The worker's catch block: write a failed result, then re-read the job
record and mark it failed.  The second component is `false` when the job
record is absent, where `JSON.parse(null)` yields `null` and
`job.status = 'failed'` throws inside the catch (the failed result is still
written first). -/
def failurePath (st : Store) (jobId : String) (msg : String) (now : Nat) :
    Store × Bool :=
  let st1 := setResult st jobId
    { jobId := jobId, status := .failed, result := none,
      error := some msg, processedAt := now }
  match st1.jobs jobId with
  | some j => (setJob st1 jobId { j with status := .failed }, true)
  | none => (st1, false)

/-- The worker's success path: write a completed result, then re-read the job
record and mark it completed.  When the job record is absent, the thrown
`TypeError` is caught by the catch block, which overwrites the result with a
failed one (the message below models the JS TypeError text). -/
def successPath (st : Store) (jobId : String) (v : Json) (now : Nat) :
    Store × Bool :=
  let st1 := setResult st jobId
    { jobId := jobId, status := .completed, result := some v,
      error := none, processedAt := now }
  match st1.jobs jobId with
  | some j => (setJob st1 jobId { j with status := .completed }, true)
  | none => failurePath st1 jobId "Cannot set properties of null" now

/-- `processJob` from worker.js: one popped job is processed to a terminal
result.  The error messages on the failure paths are the ones the source
constructs. -/
def processJob (st : Store) (jobData : Job) (outcome : FetchResult) (now : Nat) :
    Store × Bool :=
  match outcome with
  | .fetchNotOk statusText =>
    failurePath st jobData.jobId ("Failed to fetch image: " ++ statusText) now
  | .fetchThrow msg => failurePath st jobData.jobId msg now
  | .apiNotOk status errorText =>
    failurePath st jobData.jobId
      ("X.AI API error: " ++ toString status ++ " - " ++ errorText) now
  | .apiThrow msg => failurePath st jobData.jobId msg now
  | .noContent =>
    failurePath st jobData.jobId "No content returned from X.AI API" now
  | .content text =>
    if text.isEmpty then
      failurePath st jobData.jobId "No content returned from X.AI API" now
    else
      match parseStepModel text with
      | .error e => failurePath st jobData.jobId e now
      | .ok v => successPath st jobData.jobId v now

/-- The raw JSON value a given external outcome successfully yields, if any:
`some` exactly on the worker's success path. -/
def outcomeRaw : FetchResult → Option Json
  | .content t => if t.isEmpty then none else (parseStepModel t).toOption
  | _ => none

/-- A concrete pending job used by worker witnesses. -/
def witnessJob : Job :=
  { jobId := "j1", imageUrl := "https://img.example/x.png",
    mimeType := "image/png", submittedBy := "u", subreddit := "s",
    postId := "p", createdAt := 0, status := .pending }

/-- A store holding exactly `witnessJob`. -/
def witnessStore : Store := setJob emptyStore "j1" witnessJob

/-- The C6 counterexample response text: two complete JSON objects separated
by prose. -/
def c6Content : String := "\x7b\"a\":1\x7d and also \x7b\"b\":2\x7d"

/-- The first well-formed JSON object substring of `c6Content`. -/
def c6Sub : String := "\x7b\"a\":1\x7d"

/-- The rest of `c6Content` after `c6Sub`. -/
def c6Post : String := " and also \x7b\"b\":2\x7d"

/-! ## Job submission (`/api/analyze-async` in server/index.ts) -/

/-- One uploaded image as multer presents it to the handler. -/
structure FileUpload where
  buffer : String
  mimetype : String
  originalname : String
deriving DecidableEq

/-- The Devvit request context fields the handler reads. -/
structure Ctx where
  userId : Option String
  subredditName : Option String
  postId : Option String

/-- JavaScript `value || default` on an optional string (the empty string is
falsy). -/
def orDefault (v : Option String) (d : String) : String :=
  match v with
  | some s => if s.isEmpty then d else s
  | none => d

/-- Observable side effects of the submission loop, in order. -/
inductive SubmitEvent where
  | storeWrite (jobId : String) : SubmitEvent
  | queuePush (jobId : String) : SubmitEvent
deriving DecidableEq

/-- State produced by the submission loop. -/
structure SubmitOutcome where
  store : Store
  queue : List Job
  jobIds : List String
  events : List SubmitEvent

/-- The HTTP response of the endpoint: `res.json({jobs})` on success, the
500 handler otherwise. -/
inductive SubmitResponse where
  | success (jobs : List String) : SubmitResponse
  | serverError (msg : String) : SubmitResponse
deriving DecidableEq

/-- Full result of a submission request. -/
structure SubmitResult where
  store : Store
  queue : List Job
  response : SubmitResponse
  events : List SubmitEvent

/-- The per-image loop of `/api/analyze-async`: for each file, take the next
fresh id from the `crypto.randomUUID` stream `ids`, upload the image via the
media collaborator (`media`, modelled as total per spec §6), write the
pending job record to the store, then push it onto the queue (`rPush`
appends on the right). -/
def analyzeAsyncLoop (st : Store) (q : List Job) (files : List FileUpload)
    (ids : List String) (media : FileUpload → String) (ctx : Ctx) (now : Nat) :
    SubmitOutcome :=
  match files, ids with
  | [], _ => { store := st, queue := q, jobIds := [], events := [] }
  | _ :: _, [] => { store := st, queue := q, jobIds := [], events := [] }
  | f :: fs, id :: rest =>
    let job : Job :=
      { jobId := id, imageUrl := media f, mimeType := f.mimetype,
        submittedBy := orDefault ctx.userId "anonymous",
        subreddit := orDefault ctx.subredditName "unknown",
        postId := orDefault ctx.postId "",
        createdAt := now, status := .pending }
    let out := analyzeAsyncLoop (setJob st id job) (q ++ [job]) fs rest media ctx now
    { store := out.store, queue := out.queue, jobIds := id :: out.jobIds,
      events := .storeWrite id :: .queuePush id :: out.events }

/-- The `/api/analyze-async` handler: runs the loop and responds with the
ordered list of jobIds. -/
def analyzeAsync (st : Store) (q : List Job) (files : List FileUpload)
    (ids : List String) (media : FileUpload → String) (ctx : Ctx) (now : Nat) :
    SubmitResult :=
  let out := analyzeAsyncLoop st q files ids media ctx now
  { store := out.store, queue := out.queue,
    response := .success out.jobIds, events := out.events }

/-- The canonical event trace of a submission: one store write followed by
one queue push per fresh id, in input order. -/
def pairEvents : List String → List SubmitEvent
  | [] => []
  | id :: rest => .storeWrite id :: .queuePush id :: pairEvents rest

/-- A concrete uploaded file for witnesses. -/
def witnessFile : FileUpload :=
  { buffer := "bytes", mimetype := "image/png", originalname := "a.png" }

/-- A concrete request context for witnesses. -/
def witnessCtx : Ctx :=
  { userId := some "u", subredditName := some "s", postId := some "p" }

/-- A concrete media-upload collaborator for witnesses. -/
def witnessMedia : FileUpload → String := fun _ => "https://media.example/m.png"

/-! ## Combined submission/worker transition system -/

/-- Shared mutable state: the Redis store and the FIFO queue. -/
structure Sys where
  store : Store
  queue : List Job

/-- The initial state: empty store, empty queue. -/
def sysInit : Sys := { store := emptyStore, queue := [] }

/-- One step of the pipeline: either a submission request (the freshness and
no-duplication hypotheses model `crypto.randomUUID`), or the worker blocking-
popping the queue head and processing it under some external outcome. -/
inductive Step : Sys → Sys → Prop
  | submit (s : Sys) (files : List FileUpload) (ids : List String)
      (media : FileUpload → String) (ctx : Ctx) (now : Nat)
      (hnd : ids.Nodup)
      (hfresh : ∀ id ∈ ids, s.store.jobs id = none ∧ s.store.results id = none) :
      Step s { store := (analyzeAsync s.store s.queue files ids media ctx now).store,
               queue := (analyzeAsync s.store s.queue files ids media ctx now).queue }
  | work (s : Sys) (jd : Job) (rest : List Job) (o : FetchResult) (now : Nat)
      (hq : s.queue = jd :: rest) :
      Step s { store := (processJob s.store jd o now).1, queue := rest }

/-- States reachable from the initial state by submission and worker steps. -/
def Reachable (s : Sys) : Prop := Relation.ReflTransGen Step sysInit s

/-- The C8 invariant on the store: a result record exists exactly for jobs
whose stored status has left `pending`. -/
def resultIffTerminal (st : Store) : Prop :=
  ∀ id, (st.results id).isSome = true ↔
    ∃ j, st.jobs id = some j ∧ j.status ≠ JobStatus.pending

/-- Auxiliary invariant: every queued job has a store record. -/
def queueBacked (s : Sys) : Prop :=
  ∀ jd ∈ s.queue, ∃ j, s.store.jobs jd.jobId = some j

/-- The preserved system invariant. -/
def SysInv (s : Sys) : Prop := resultIffTerminal s.store ∧ queueBacked s

/-! ## Rounding helper lemmas -/

/-- Rounding a non-negative rational gives a non-negative integer. -/
theorem round_nonneg_of (x : ℚ) (h : 0 ≤ x) : 0 ≤ round x := by
  rw [round_eq]
  exact Int.le_floor.mpr (by push_cast; linarith)

/-- Rounding cannot exceed an integer upper bound of the argument. -/
theorem round_le_int (x : ℚ) (n : ℤ) (h : x ≤ (n : ℚ)) : round x ≤ n := by
  rw [round_eq]
  have h2 : ⌊x + 1 / 2⌋ < n + 1 := Int.floor_lt.mpr (by push_cast; linarith)
  omega

/-- Computation rule for `round` on rationals via its half-open window. -/
theorem round_rat_eq (x : ℚ) (n : ℤ) (h1 : (n : ℚ) ≤ x + 1 / 2)
    (h2 : x + 1 / 2 < (n : ℚ) + 1) : round x = n := by
  rw [round_eq]
  exact Int.floor_eq_iff.mpr ⟨h1, h2⟩

/-- `toFixed2` maps `[0, 1]` into `[0, 1]`. -/
theorem toFixed2_bounds {m : ℚ} (h0 : 0 ≤ m) (h1 : m ≤ 1) :
    0 ≤ toFixed2 m ∧ toFixed2 m ≤ 1 := by
  unfold toFixed2
  have hge : 0 ≤ round (m * 100) := round_nonneg_of _ (by linarith)
  have hle : round (m * 100) ≤ 100 := round_le_int _ 100 (by push_cast; linarith)
  constructor
  · apply div_nonneg _ (by norm_num)
    exact_mod_cast hge
  · rw [div_le_one (by norm_num)]
    exact_mod_cast hle

/-- `toFixed2 1 = 1`. -/
theorem toFixed2_one : toFixed2 1 = 1 := by
  unfold toFixed2
  rw [show ((1 : ℚ) * 100) = 100 by norm_num,
    round_rat_eq 100 100 (by norm_num) (by norm_num)]
  norm_num

/-- `toFixed2 0 = 0`. -/
theorem toFixed2_zero : toFixed2 0 = 0 := by
  unfold toFixed2
  rw [show ((0 : ℚ) * 100) = 0 by norm_num,
    round_rat_eq 0 0 (by norm_num) (by norm_num)]
  norm_num

/-- `toFixed2 (1/2) = 1/2`. -/
theorem toFixed2_half : toFixed2 (1 / 2) = 1 / 2 := by
  unfold toFixed2
  rw [show ((1 : ℚ) / 2 * 100) = 50 by norm_num,
    round_rat_eq 50 50 (by norm_num) (by norm_num)]
  norm_num

/-! ## Reduction lemmas for the scoring engine -/

/-- Guard C fires on a present average thickness outside `(0, 5]`. -/
theorem guardCTriggered_some_true {a : ℚ} (h : a ≤ 0 ∨ 5 < a) :
    guardCTriggered (some a) = true := by
  show (if a ≤ 0 then true else if 5 < a then true else false) = true
  rcases h with h | h
  · rw [if_pos h]
  · by_cases h0 : a ≤ 0
    · rw [if_pos h0]
    · rw [if_neg h0, if_pos h]

/-- Guard C does not fire on a present average thickness inside `(0, 5]`. -/
theorem guardCTriggered_some_false {a : ℚ} (h0 : 0 < a) (h5 : a ≤ 5) :
    guardCTriggered (some a) = false := by
  show (if a ≤ 0 then true else if 5 < a then true else false) = false
  rw [if_neg (by intro hc; linarith), if_neg (by intro hc; linarith)]

/-- The label score always lies in the four-value set of the rubric. -/
theorem cutLabelScore_cases (label : String) :
    cutLabelScore label = 1 ∨ cutLabelScore label = 0.7 ∨
    cutLabelScore label = 0.35 ∨ cutLabelScore label = 0.5 := by
  unfold cutLabelScore
  split_ifs <;> simp

/-- When Guards A, B and C all pass, `scoreChiveAnalysis` runs the final
scoring block. -/
theorem score_eq_compute (base : BaseChiveMetrics)
    (h2 : 2 ≤ (activeRegions base).length)
    (hc : guardCTriggered base.averageThicknessMm = false) :
    scoreChiveAnalysis base = scoreCompute base := by
  unfold scoreChiveAnalysis
  rw [if_neg (by omega), if_neg (by omega), if_neg (by simp [hc])]

/-- Consistency score produced by the final scoring block. -/
theorem scoreCompute_tcs (base : BaseChiveMetrics) (s : ℚ)
    (hs : base.thicknessStdDevMm = some s) :
    (scoreCompute base).thicknessConsistencyScore =
      some (toFixed2 (max 0 (1 - s / 1.5))) := by
  unfold scoreCompute
  rw [hs]

/-- Cut-quality score produced by the final scoring block. -/
theorem scoreCompute_cqs (base : BaseChiveMetrics) (label : String)
    (hl : base.cutQualityLabel = some label) :
    (scoreCompute base).cutQualityScore = some (cutLabelScore label) := by
  unfold scoreCompute
  rw [hl]

/-- Overall score produced by the final scoring block when both inputs are
present. -/
theorem scoreCompute_overall (base : BaseChiveMetrics) (s : ℚ) (label : String)
    (hs : base.thicknessStdDevMm = some s)
    (hl : base.cutQualityLabel = some label) :
    (scoreCompute base).overallScore =
      some (round ((toFixed2 (max 0 (1 - s / 1.5)) * 0.6 +
        cutLabelScore label * 0.4) * 100)) := by
  unfold scoreCompute
  rw [hs, hl]
  rfl

/-! ## Claim theorems for the scoring engine -/

/-- C1: for every RawMetrics input, if the number of active regions is zero or
exactly one, or if `averageThicknessMm` is present and lies outside `(0, 5]`,
then `scoreChiveAnalysis` returns `thicknessConsistencyScore`,
`cutQualityScore` and `overallScore` all null. -/
theorem score_guards_all_null (base : BaseChiveMetrics)
    (h : (activeRegions base).length = 0 ∨ (activeRegions base).length = 1 ∨
         (∃ a, base.averageThicknessMm = some a ∧ (a ≤ 0 ∨ 5 < a))) :
    (scoreChiveAnalysis base).thicknessConsistencyScore = none ∧
    (scoreChiveAnalysis base).cutQualityScore = none ∧
    (scoreChiveAnalysis base).overallScore = none := by
  unfold scoreChiveAnalysis
  split_ifs with h0 h1 hg
  · exact ⟨rfl, rfl, rfl⟩
  · exact ⟨rfl, rfl, rfl⟩
  · exact ⟨rfl, rfl, rfl⟩
  · exfalso
    rcases h with h | h | ⟨a, ha, hcase⟩
    · exact h0 h
    · exact h1 h
    · apply hg
      rw [ha]
      exact guardCTriggered_some_true hcase

/-- Witness for C1: an input with no `regions` field has zero active regions,
and scoring it yields all-null scores. -/
theorem score_guards_all_null_witness :
    ((activeRegions witnessBaseGuardA).length = 0 ∨
     (activeRegions witnessBaseGuardA).length = 1 ∨
     (∃ a, witnessBaseGuardA.averageThicknessMm = some a ∧ (a ≤ 0 ∨ 5 < a))) ∧
    ((scoreChiveAnalysis witnessBaseGuardA).thicknessConsistencyScore = none ∧
     (scoreChiveAnalysis witnessBaseGuardA).cutQualityScore = none ∧
     (scoreChiveAnalysis witnessBaseGuardA).overallScore = none) :=
  ⟨Or.inl rfl, score_guards_all_null witnessBaseGuardA (Or.inl rfl)⟩

/-- C2: for every valid RawMetrics passing Guards A, B and C (at least two
active regions, `averageThicknessMm` absent or in `(0, 5]`,
`thicknessStdDevMm` a (finite) non-negative number, `cutQualityLabel` a
string), `scoreChiveAnalysis` returns `thicknessConsistencyScore` in `[0, 1]`,
`cutQualityScore` in `{1.0, 0.7, 0.35, 0.5}` and `overallScore` an integer in
`[0, 100]`. -/
theorem score_bounds (base : BaseChiveMetrics) (s : ℚ) (label : String)
    (h2 : 2 ≤ (activeRegions base).length)
    (havg : base.averageThicknessMm = none ∨
            ∃ a, base.averageThicknessMm = some a ∧ 0 < a ∧ a ≤ 5)
    (hs : base.thicknessStdDevMm = some s) (hs0 : 0 ≤ s)
    (hl : base.cutQualityLabel = some label) :
    (∃ t, (scoreChiveAnalysis base).thicknessConsistencyScore = some t ∧
      0 ≤ t ∧ t ≤ 1) ∧
    (∃ c, (scoreChiveAnalysis base).cutQualityScore = some c ∧
      (c = 1 ∨ c = 0.7 ∨ c = 0.35 ∨ c = 0.5)) ∧
    (∃ n : ℤ, (scoreChiveAnalysis base).overallScore = some n ∧
      0 ≤ n ∧ n ≤ 100) := by
  have hcF : guardCTriggered base.averageThicknessMm = false := by
    rcases havg with h | ⟨a, ha, h0a, ha5⟩
    · rw [h]; rfl
    · rw [ha]
      exact guardCTriggered_some_false h0a ha5
  rw [score_eq_compute base h2 hcF]
  have hm0 : 0 ≤ max 0 (1 - s / 1.5) := le_max_left _ _
  have hm1 : max 0 (1 - s / 1.5) ≤ 1 := by
    apply max_le (by norm_num)
    have hd : 0 ≤ s / 1.5 := by positivity
    linarith
  obtain ⟨ht0, ht1⟩ := toFixed2_bounds hm0 hm1
  have hcset := cutLabelScore_cases label
  have hc0 : 0 ≤ cutLabelScore label := by
    rcases hcset with h | h | h | h <;> rw [h] <;> norm_num
  have hc1 : cutLabelScore label ≤ 1 := by
    rcases hcset with h | h | h | h <;> rw [h] <;> norm_num
  refine ⟨⟨toFixed2 (max 0 (1 - s / 1.5)), scoreCompute_tcs base s hs, ht0, ht1⟩,
          ⟨cutLabelScore label, scoreCompute_cqs base label hl, hcset⟩,
          ⟨round ((toFixed2 (max 0 (1 - s / 1.5)) * 0.6 +
              cutLabelScore label * 0.4) * 100),
           scoreCompute_overall base s label hs hl, ?_, ?_⟩⟩
  · exact round_nonneg_of _ (by nlinarith)
  · exact round_le_int _ 100 (by push_cast; nlinarith)

/-- Witness for C2: a guard-passing input with zero standard deviation and a
`clean` label satisfies all the hypotheses and the score bounds. -/
theorem score_bounds_witness :
    (2 ≤ (activeRegions witnessBaseOk).length ∧ (0 : ℚ) ≤ 0) ∧
    ((∃ t, (scoreChiveAnalysis witnessBaseOk).thicknessConsistencyScore = some t ∧
      0 ≤ t ∧ t ≤ 1) ∧
    (∃ c, (scoreChiveAnalysis witnessBaseOk).cutQualityScore = some c ∧
      (c = 1 ∨ c = 0.7 ∨ c = 0.35 ∨ c = 0.5)) ∧
    (∃ n : ℤ, (scoreChiveAnalysis witnessBaseOk).overallScore = some n ∧
      0 ≤ n ∧ n ≤ 100)) :=
  ⟨⟨by decide, le_refl 0⟩,
   score_bounds witnessBaseOk 0 "clean" (by decide) (Or.inl rfl) rfl (le_refl 0) rfl⟩

/-- C3: with all guards passing, `thicknessStdDevMm = 0` gives consistency
score 1.0, `thicknessStdDevMm = 1.5` gives 0, and `thicknessStdDevMm = 0.75`
with `cutQualityLabel = "clean"` gives consistency 0.5, cut quality 1.0 and
overall score 70. -/
theorem score_examples (base : BaseChiveMetrics)
    (h2 : 2 ≤ (activeRegions base).length)
    (havg : guardCTriggered base.averageThicknessMm = false) :
    (base.thicknessStdDevMm = some 0 →
      (scoreChiveAnalysis base).thicknessConsistencyScore = some 1) ∧
    (base.thicknessStdDevMm = some 1.5 →
      (scoreChiveAnalysis base).thicknessConsistencyScore = some 0) ∧
    (base.thicknessStdDevMm = some 0.75 → base.cutQualityLabel = some "clean" →
      (scoreChiveAnalysis base).thicknessConsistencyScore = some 0.5 ∧
      (scoreChiveAnalysis base).cutQualityScore = some 1 ∧
      (scoreChiveAnalysis base).overallScore = some 70) := by
  rw [score_eq_compute base h2 havg]
  have hclean : cutLabelScore "clean" = 1 := rfl
  have hmax0 : max (0 : ℚ) (1 - 0 / 1.5) = 1 := by norm_num
  have hmax15 : max (0 : ℚ) (1 - 1.5 / 1.5) = 0 := by norm_num
  have hmax75 : max (0 : ℚ) (1 - 0.75 / 1.5) = 1 / 2 := by norm_num
  refine ⟨?_, ?_, ?_⟩
  · intro hs
    rw [scoreCompute_tcs base 0 hs, hmax0, toFixed2_one]
  · intro hs
    rw [scoreCompute_tcs base 1.5 hs, hmax15, toFixed2_zero]
  · intro hs hl
    refine ⟨?_, ?_, ?_⟩
    · rw [scoreCompute_tcs base 0.75 hs, hmax75, toFixed2_half]
      norm_num
    · rw [scoreCompute_cqs base "clean" hl, hclean]
    · rw [scoreCompute_overall base 0.75 "clean" hs hl, hmax75, toFixed2_half,
        hclean, show ((1 : ℚ) / 2 * 0.6 + 1 * 0.4) * 100 = 70 by norm_num,
        round_rat_eq 70 70 (by norm_num) (by norm_num)]

/-- Witness for C3: the worked example input satisfies the guard hypotheses,
and in particular yields consistency 0.5, cut quality 1.0 and overall 70. -/
theorem score_examples_witness :
    (2 ≤ (activeRegions witnessBaseEx).length ∧
     guardCTriggered witnessBaseEx.averageThicknessMm = false) ∧
    ((scoreChiveAnalysis witnessBaseEx).thicknessConsistencyScore = some 0.5 ∧
     (scoreChiveAnalysis witnessBaseEx).cutQualityScore = some 1 ∧
     (scoreChiveAnalysis witnessBaseEx).overallScore = some 70) :=
  ⟨⟨by decide, rfl⟩,
   (score_examples witnessBaseEx (by decide) rfl).2.2 rfl rfl⟩

/-- C4: the scoring engine is a pure function of its input - two invocations
on the same RawMetrics yield identical ScoredMetrics, field by field.  In
this shallow embedding `scoreChiveAnalysis` is a total function with no state,
so determinism holds by construction. -/
theorem score_deterministic (b1 b2 : BaseChiveMetrics) (h : b1 = b2) :
    (scoreChiveAnalysis b1).thicknessConsistencyScore =
      (scoreChiveAnalysis b2).thicknessConsistencyScore ∧
    (scoreChiveAnalysis b1).cutQualityScore =
      (scoreChiveAnalysis b2).cutQualityScore ∧
    (scoreChiveAnalysis b1).overallScore =
      (scoreChiveAnalysis b2).overallScore ∧
    (scoreChiveAnalysis b1).notes = (scoreChiveAnalysis b2).notes := by
  subst h
  exact ⟨rfl, rfl, rfl, rfl⟩

/-- Witness for C4 at a concrete input. -/
theorem score_deterministic_witness :
    witnessBaseEx = witnessBaseEx ∧
    ((scoreChiveAnalysis witnessBaseEx).thicknessConsistencyScore =
      (scoreChiveAnalysis witnessBaseEx).thicknessConsistencyScore ∧
    (scoreChiveAnalysis witnessBaseEx).cutQualityScore =
      (scoreChiveAnalysis witnessBaseEx).cutQualityScore ∧
    (scoreChiveAnalysis witnessBaseEx).overallScore =
      (scoreChiveAnalysis witnessBaseEx).overallScore ∧
    (scoreChiveAnalysis witnessBaseEx).notes =
      (scoreChiveAnalysis witnessBaseEx).notes) :=
  ⟨rfl, score_deterministic witnessBaseEx witnessBaseEx rfl⟩

/-- C10 (implicit): the scoring engine is total on malformed input - when the
`regions` field is absent or not an array, or no entry of it passes the
active-region filter (entries that are `null`, lack a string label, or are
labelled `no_chives`), Guard A fires: all three scores are null and the note
is the no-chives explanation, prefixed by `rawNotes` when that is
non-blank (`noChivesNote`). -/
theorem score_malformed_guardA (base : BaseChiveMetrics)
    (h : base.regions = .absent ∨ base.regions = .notArray ∨
         ∀ r ∈ regionList base.regions, regionHasChives r = false) :
    (scoreChiveAnalysis base).thicknessConsistencyScore = none ∧
    (scoreChiveAnalysis base).cutQualityScore = none ∧
    (scoreChiveAnalysis base).overallScore = none ∧
    (scoreChiveAnalysis base).notes = noChivesNote base.rawNotes := by
  have hempty : activeRegions base = [] := by
    unfold activeRegions
    rcases h with h | h | h
    · rw [h]; rfl
    · rw [h]; rfl
    · rw [List.filter_eq_nil_iff]
      intro a ha
      simp [h a ha]
  unfold scoreChiveAnalysis
  rw [hempty]
  exact ⟨rfl, rfl, rfl, rfl⟩

/-- Witness for C10: an array holding a `null` entry, a label-less entry and a
`no_chives` entry has no active region; scoring returns all null and the
raw-notes-prefixed explanation. -/
theorem score_malformed_guardA_witness :
    (witnessBaseMalformed.regions = .absent ∨
     witnessBaseMalformed.regions = .notArray ∨
     ∀ r ∈ regionList witnessBaseMalformed.regions, regionHasChives r = false) ∧
    ((scoreChiveAnalysis witnessBaseMalformed).thicknessConsistencyScore = none ∧
     (scoreChiveAnalysis witnessBaseMalformed).cutQualityScore = none ∧
     (scoreChiveAnalysis witnessBaseMalformed).overallScore = none ∧
     (scoreChiveAnalysis witnessBaseMalformed).notes =
       noChivesNote witnessBaseMalformed.rawNotes) :=
  ⟨Or.inr (Or.inr (by decide)),
   score_malformed_guardA witnessBaseMalformed (Or.inr (Or.inr (by decide)))⟩

/-! ## Pointwise store lemmas -/

/-- Reading jobs after a job write. -/
theorem setJob_jobs (st : Store) (id : String) (j : Job) (k : String) :
    (setJob st id j).jobs k = if k = id then some j else st.jobs k := rfl

/-- Job writes leave results unchanged. -/
theorem setJob_results (st : Store) (id : String) (j : Job) (k : String) :
    (setJob st id j).results k = st.results k := rfl

/-- Reading results after a result write. -/
theorem setResult_results (st : Store) (id : String) (r : ResultRecord) (k : String) :
    (setResult st id r).results k = if k = id then some r else st.results k := rfl

/-- Result writes leave jobs unchanged. -/
theorem setResult_jobs (st : Store) (id : String) (r : ResultRecord) (k : String) :
    (setResult st id r).jobs k = st.jobs k := rfl

/-! ## Worker path lemmas -/

/-- Complete description of the catch block when the job record exists: a
failed result and a failed job status are written at the job's key and
nothing else changes. -/
theorem failurePath_full (st : Store) (id msg : String) (now : Nat) (j : Job)
    (hj : st.jobs id = some j) :
    (failurePath st id msg now).2 = true ∧
    (∀ k, (failurePath st id msg now).1.results k =
      if k = id then
        some { jobId := id, status := .failed, result := none,
               error := some msg, processedAt := now }
      else st.results k) ∧
    (∀ k, (failurePath st id msg now).1.jobs k =
      if k = id then some { j with status := JobStatus.failed }
      else st.jobs k) := by
  have h1 : (setResult st id
      { jobId := id, status := .failed, result := none,
        error := some msg, processedAt := now }).jobs id = some j := by
    rw [setResult_jobs, hj]
  simp only [failurePath, h1]
  refine ⟨trivial, fun k => ?_, fun k => ?_⟩
  · rw [setJob_results, setResult_results]
  · rw [setJob_jobs, setResult_jobs]

/-- Complete description of the success path when the job record exists: a
completed result and a completed job status are written at the job's key and
nothing else changes. -/
theorem successPath_full (st : Store) (id : String) (v : Json) (now : Nat) (j : Job)
    (hj : st.jobs id = some j) :
    (successPath st id v now).2 = true ∧
    (∀ k, (successPath st id v now).1.results k =
      if k = id then
        some { jobId := id, status := .completed, result := some v,
               error := none, processedAt := now }
      else st.results k) ∧
    (∀ k, (successPath st id v now).1.jobs k =
      if k = id then some { j with status := JobStatus.completed }
      else st.jobs k) := by
  have h1 : (setResult st id
      { jobId := id, status := .completed, result := some v,
        error := none, processedAt := now }).jobs id = some j := by
    rw [setResult_jobs, hj]
  simp only [successPath, h1]
  refine ⟨trivial, fun k => ?_, fun k => ?_⟩
  · rw [setJob_results, setResult_results]
  · rw [setJob_jobs, setResult_jobs]

/-- Complete description of `processJob` when the popped job's record exists
in the store: it terminates normally, writes exactly one result record and
one job-status update at the job's key (completed on the success path,
failed with an error message otherwise), and touches no other key. -/
theorem processJob_spec (st : Store) (jd : Job) (o : FetchResult) (now : Nat)
    (j : Job) (hj : st.jobs jd.jobId = some j) :
    (processJob st jd o now).2 = true ∧
    ∃ (r : ResultRecord) (j' : Job),
      r.jobId = jd.jobId ∧
      ((∃ v, outcomeRaw o = some v ∧ r.status = ResultStatus.completed ∧
          r.result = some v ∧ j'.status = JobStatus.completed) ∨
       (outcomeRaw o = none ∧ r.status = ResultStatus.failed ∧
          (∃ e, r.error = some e) ∧ j'.status = JobStatus.failed)) ∧
      (∀ k, (processJob st jd o now).1.results k =
        if k = jd.jobId then some r else st.results k) ∧
      (∀ k, (processJob st jd o now).1.jobs k =
        if k = jd.jobId then some j' else st.jobs k) := by
  cases o with
  | fetchNotOk s =>
    obtain ⟨hb, hres, hjobs⟩ := failurePath_full st jd.jobId
      ("Failed to fetch image: " ++ s) now j hj
    exact ⟨hb, _, _, rfl, Or.inr ⟨rfl, rfl, ⟨_, rfl⟩, rfl⟩, hres, hjobs⟩
  | fetchThrow msg =>
    obtain ⟨hb, hres, hjobs⟩ := failurePath_full st jd.jobId msg now j hj
    exact ⟨hb, _, _, rfl, Or.inr ⟨rfl, rfl, ⟨_, rfl⟩, rfl⟩, hres, hjobs⟩
  | apiNotOk code txt =>
    obtain ⟨hb, hres, hjobs⟩ := failurePath_full st jd.jobId
      ("X.AI API error: " ++ toString code ++ " - " ++ txt) now j hj
    exact ⟨hb, _, _, rfl, Or.inr ⟨rfl, rfl, ⟨_, rfl⟩, rfl⟩, hres, hjobs⟩
  | apiThrow msg =>
    obtain ⟨hb, hres, hjobs⟩ := failurePath_full st jd.jobId msg now j hj
    exact ⟨hb, _, _, rfl, Or.inr ⟨rfl, rfl, ⟨_, rfl⟩, rfl⟩, hres, hjobs⟩
  | noContent =>
    obtain ⟨hb, hres, hjobs⟩ := failurePath_full st jd.jobId
      "No content returned from X.AI API" now j hj
    exact ⟨hb, _, _, rfl, Or.inr ⟨rfl, rfl, ⟨_, rfl⟩, rfl⟩, hres, hjobs⟩
  | content t =>
    by_cases ht : t.isEmpty
    · have hred : processJob st jd (.content t) now =
          failurePath st jd.jobId "No content returned from X.AI API" now := by
        simp [processJob, ht]
      have hraw : outcomeRaw (.content t) = none := by
        simp [outcomeRaw, ht]
      obtain ⟨hb, hres, hjobs⟩ := failurePath_full st jd.jobId
        "No content returned from X.AI API" now j hj
      rw [hred, hraw]
      exact ⟨hb, _, _, rfl, Or.inr ⟨rfl, rfl, ⟨_, rfl⟩, rfl⟩, hres, hjobs⟩
    · cases hp : parseStepModel t with
      | error e =>
        have hred : processJob st jd (.content t) now =
            failurePath st jd.jobId e now := by
          simp [processJob, ht, hp]
        have hraw : outcomeRaw (.content t) = none := by
          simp [outcomeRaw, ht, hp, Except.toOption]
        obtain ⟨hb, hres, hjobs⟩ := failurePath_full st jd.jobId e now j hj
        rw [hred, hraw]
        exact ⟨hb, _, _, rfl, Or.inr ⟨rfl, rfl, ⟨_, rfl⟩, rfl⟩, hres, hjobs⟩
      | ok v =>
        have hred : processJob st jd (.content t) now =
            successPath st jd.jobId v now := by
          simp [processJob, ht, hp]
        have hraw : outcomeRaw (.content t) = some v := by
          simp [outcomeRaw, ht, hp, Except.toOption]
        obtain ⟨hb, hres, hjobs⟩ := successPath_full st jd.jobId v now j hj
        rw [hred, hraw]
        exact ⟨hb, _, _, rfl, Or.inl ⟨v, rfl, rfl, rfl, rfl⟩, hres, hjobs⟩

/-- C5: for every popped job whose record is in the Result Store, processing
terminates with the store holding a terminal result for that jobId -
completed with the parsed raw on the success path, failed with an error
message on every failure path - and the stored job's status is updated to the
matching terminal status, so the processed job is not left pending. -/
theorem processJob_writes_terminal (st : Store) (jd : Job) (o : FetchResult)
    (now : Nat) (j : Job) (hj : st.jobs jd.jobId = some j) :
    ∃ (r : ResultRecord) (j' : Job),
      (processJob st jd o now).1.results jd.jobId = some r ∧
      (processJob st jd o now).1.jobs jd.jobId = some j' ∧
      j'.status ≠ JobStatus.pending ∧
      ((∃ v, outcomeRaw o = some v ∧ r.status = ResultStatus.completed ∧
          r.result = some v ∧ j'.status = JobStatus.completed) ∨
       (outcomeRaw o = none ∧ r.status = ResultStatus.failed ∧
          (∃ e, r.error = some e) ∧ j'.status = JobStatus.failed)) := by
  obtain ⟨-, r, j', -, hcase, hres, hjobs⟩ := processJob_spec st jd o now j hj
  refine ⟨r, j', ?_, ?_, ?_, hcase⟩
  · rw [hres jd.jobId, if_pos rfl]
  · rw [hjobs jd.jobId, if_pos rfl]
  · rcases hcase with ⟨v, -, -, -, hs⟩ | ⟨-, -, -, hs⟩ <;> rw [hs] <;> decide

/-! ## Worker witness fixtures appear above; C5 witness -/

/-- Witness for C5: a stored pending job whose image fetch throws ends with a
failed result and a failed job status. -/
theorem processJob_writes_terminal_witness :
    witnessStore.jobs witnessJob.jobId = some witnessJob ∧
    (∃ (r : ResultRecord) (j' : Job),
      (processJob witnessStore witnessJob (.fetchThrow "fetch failed") 7).1.results
        witnessJob.jobId = some r ∧
      (processJob witnessStore witnessJob (.fetchThrow "fetch failed") 7).1.jobs
        witnessJob.jobId = some j' ∧
      j'.status ≠ JobStatus.pending ∧
      ((∃ v, outcomeRaw (.fetchThrow "fetch failed") = some v ∧
          r.status = ResultStatus.completed ∧
          r.result = some v ∧ j'.status = JobStatus.completed) ∨
       (outcomeRaw (.fetchThrow "fetch failed") = none ∧
          r.status = ResultStatus.failed ∧
          (∃ e, r.error = some e) ∧ j'.status = JobStatus.failed))) :=
  ⟨rfl, processJob_writes_terminal witnessStore witnessJob
    (.fetchThrow "fetch failed") 7 witnessJob rfl⟩

/-! ## The worker's parse step: brace-span extraction -/

/-- Structural characterization of the regex match: the matched text is a
contiguous slice of the input running from the first opening brace (no
opening brace occurs before it) to the last closing brace (no closing brace
occurs after it). -/
theorem regexMatchBraces_decomp (cs m : List Char)
    (h : regexMatchBraces cs = some m) :
    ∃ pre post, cs = pre ++ m ++ post ∧ lbrace ∉ pre ∧ rbrace ∉ post ∧
      m.head? = some lbrace ∧ m.getLast? = some rbrace := by
  simp only [regexMatchBraces] at h
  set pl : Char → Bool := fun c => !(c == lbrace) with hpl
  set pr : Char → Bool := fun c => !(c == rbrace) with hpr
  set fb : List Char := cs.dropWhile pl with hfb
  by_cases hemp : ((fb.reverse.dropWhile pr).reverse).isEmpty
  · rw [if_pos hemp] at h
    exact absurd h (by simp)
  · rw [if_neg hemp] at h
    have hm : m = (fb.reverse.dropWhile pr).reverse := by
      injection h with h2
      exact h2.symm
    have h1 : cs.takeWhile pl ++ fb = cs := List.takeWhile_append_dropWhile pl cs
    have h2 : m ++ (fb.reverse.takeWhile pr).reverse = fb := by
      rw [hm, ← List.reverse_append, List.takeWhile_append_dropWhile]
      exact List.reverse_reverse fb
    have hne : m ≠ [] := by
      intro hnil
      apply hemp
      rw [← hm, hnil]
      rfl
    have hpre : lbrace ∉ cs.takeWhile pl := by
      intro hmem
      have hc := List.mem_takeWhile_imp hmem
      rw [hpl] at hc
      simp at hc
    have hpost : rbrace ∉ (fb.reverse.takeWhile pr).reverse := by
      intro hmem
      rw [List.mem_reverse] at hmem
      have hc := List.mem_takeWhile_imp hmem
      rw [hpr] at hc
      simp at hc
    have hhead : m.head? = some lbrace := by
      obtain ⟨a, m', hma⟩ : ∃ a m', m = a :: m' := by
        cases m with
        | nil => exact absurd rfl hne
        | cons a m' => exact ⟨a, m', rfl⟩
      have hfbh : fb.head? = some a := by
        rw [← h2, hma]
        rfl
      have hnot := List.head?_dropWhile_not pl cs
      rw [← hfb, hfbh] at hnot
      have hpa : pl a = false := hnot
      rw [hpl] at hpa
      simp at hpa
      rw [hma, hpa]
      rfl
    have hlast : m.getLast? = some rbrace := by
      have hdwne : fb.reverse.dropWhile pr ≠ [] := by
        intro hnil
        apply hne
        rw [hm, hnil]
        rfl
      obtain ⟨b, dw', hdw⟩ : ∃ b dw', fb.reverse.dropWhile pr = b :: dw' := by
        cases hdd : fb.reverse.dropWhile pr with
        | nil => exact absurd hdd hdwne
        | cons b dw' => exact ⟨b, dw', rfl⟩
      have hnot := List.head?_dropWhile_not pr fb.reverse
      rw [hdw] at hnot
      have hpb : pr b = false := hnot
      rw [hpr] at hpb
      simp at hpb
      rw [hm, hdw, List.getLast?_reverse, hpb]
      rfl
    exact ⟨cs.takeWhile pl, (fb.reverse.takeWhile pr).reverse,
      by rw [List.append_assoc, h2, h1], hpre, hpost, hhead, hlast⟩

/-- C6 counterexample: on the response text
`{"a":1} and also {"b":2}` the worker's parse step fails (the greedy regex
match spans from the first opening to the last closing brace and is not valid
JSON), even though the text contains a well-formed JSON object substring,
namely its prefix `{"a":1}`.  This refutes the claim that the parse step
extracts the first well-formed JSON object substring and fails only when no
such substring exists. -/
theorem parse_first_json_counterexample :
    (parseStepModel c6Content).isOk = false ∧
    c6Content.data = c6Sub.data ++ c6Post.data ∧
    parsesAsJsonObject c6Sub.data = true := by
  refine ⟨by decide, by decide, by decide⟩

/-- C6 amended: the worker's parse step succeeds exactly when the input
contains a brace-to-brace span (running from the first opening brace to the
last closing brace, with no opening brace before it and no closing brace
after it) and that single span parses as well-formed JSON; the job fails at
the parse step in every other case. -/
theorem parse_step_brace_span (text : String) :
    ((parseStepModel text).isOk = true ↔
      ∃ m, regexMatchBraces text.data = some m ∧ (jsonParseFull m).isOk = true) ∧
    (∀ m, regexMatchBraces text.data = some m →
      ∃ pre post, text.data = pre ++ m ++ post ∧ lbrace ∉ pre ∧ rbrace ∉ post ∧
        m.head? = some lbrace ∧ m.getLast? = some rbrace) := by
  constructor
  · unfold parseStepModel
    cases hr : regexMatchBraces text.data with
    | none =>
      simp only [Option.some.injEq]
      constructor
      · intro hfalse
        exact absurd hfalse (by decide)
      · rintro ⟨m, hm, -⟩
        exact absurd hm (by simp)
    | some m => simp
  · intro m hm
    exact regexMatchBraces_decomp text.data m hm

/-- Witness for the amended C6 statement: on the counterexample text the
regex match is the whole text (it starts with the first opening brace and
ends with the last closing brace), and the brace-span decomposition holds
for it. -/
theorem parse_step_brace_span_witness :
    regexMatchBraces c6Content.data = some c6Content.data ∧
    ((parseStepModel c6Content).isOk = true ↔
      ∃ m, regexMatchBraces c6Content.data = some m ∧
        (jsonParseFull m).isOk = true) ∧
    (∃ pre post, c6Content.data = pre ++ c6Content.data ++ post ∧
      lbrace ∉ pre ∧ rbrace ∉ post ∧
      c6Content.data.head? = some lbrace ∧
      c6Content.data.getLast? = some rbrace) :=
  ⟨by decide, (parse_step_brace_span c6Content).1,
   (parse_step_brace_span c6Content).2 c6Content.data (by decide)⟩

/-! ## Submission loop lemmas -/

/-- The loop returns the ids it consumed, in order, and emits the canonical
write-then-push trace. -/
theorem analyzeAsyncLoop_jobIds_events (files : List FileUpload) :
    ∀ (st : Store) (q : List Job) (ids : List String)
      (media : FileUpload → String) (ctx : Ctx) (now : Nat),
    files.length ≤ ids.length →
    (analyzeAsyncLoop st q files ids media ctx now).jobIds =
      ids.take files.length ∧
    (analyzeAsyncLoop st q files ids media ctx now).events =
      pairEvents (ids.take files.length) := by
  induction files with
  | nil =>
    intro st q ids media ctx now _
    exact ⟨rfl, rfl⟩
  | cons f fs ih =>
    intro st q ids media ctx now h
    cases ids with
    | nil => simp at h
    | cons i rest =>
      obtain ⟨h1, h2⟩ := ih _ _ rest media ctx now (by simpa using h)
      simp only [analyzeAsyncLoop, List.length_cons, List.take_succ_cons]
      rw [pairEvents]
      exact ⟨by rw [h1], by rw [h2]⟩

/-- Keys outside the consumed id prefix are untouched by the loop. -/
theorem analyzeAsyncLoop_jobs_other (files : List FileUpload) :
    ∀ (st : Store) (q : List Job) (ids : List String)
      (media : FileUpload → String) (ctx : Ctx) (now : Nat) (id : String),
    id ∉ ids.take files.length →
    (analyzeAsyncLoop st q files ids media ctx now).store.jobs id =
      st.jobs id := by
  induction files with
  | nil => intro st q ids media ctx now id _; rfl
  | cons f fs ih =>
    intro st q ids media ctx now id hid
    cases ids with
    | nil => rfl
    | cons i rest =>
      rw [List.length_cons, List.take_succ_cons] at hid
      have h1 : id ≠ i := fun he => hid (he ▸ List.mem_cons_self i _)
      have h2 : id ∉ rest.take fs.length :=
        fun hm => hid (List.mem_cons_of_mem _ hm)
      simp only [analyzeAsyncLoop]
      rw [ih _ _ rest media ctx now id h2, setJob_jobs, if_neg h1]

/-- Every consumed id ends with a pending job record in the store (fresh ids
are pairwise distinct, so later iterations do not overwrite it). -/
theorem analyzeAsyncLoop_store_pending (files : List FileUpload) :
    ∀ (st : Store) (q : List Job) (ids : List String)
      (media : FileUpload → String) (ctx : Ctx) (now : Nat) (id : String),
    (ids.take files.length).Nodup →
    id ∈ ids.take files.length →
    ∃ jb : Job,
      (analyzeAsyncLoop st q files ids media ctx now).store.jobs id = some jb ∧
      jb.status = JobStatus.pending ∧ jb.jobId = id ∧ jb.createdAt = now := by
  induction files with
  | nil =>
    intro st q ids media ctx now id _ hmem
    simp at hmem
  | cons f fs ih =>
    intro st q ids media ctx now id hnd hmem
    cases ids with
    | nil => simp at hmem
    | cons i rest =>
      rw [List.length_cons, List.take_succ_cons] at hnd hmem
      rcases List.mem_cons.mp hmem with rfl | hmem2
      · have hni : id ∉ rest.take fs.length := (List.nodup_cons.mp hnd).1
        simp only [analyzeAsyncLoop]
        rw [analyzeAsyncLoop_jobs_other fs _ _ rest media ctx now id hni,
          setJob_jobs, if_pos rfl]
        exact ⟨_, rfl, rfl, rfl, rfl⟩
      · simp only [analyzeAsyncLoop]
        exact ih _ _ rest media ctx now id (List.nodup_cons.mp hnd).2 hmem2

/-- An id outside a list generates no store-write events for it. -/
theorem pairEvents_count_store_zero (l : List String) (id : String)
    (h : id ∉ l) : (pairEvents l).count (SubmitEvent.storeWrite id) = 0 := by
  induction l with
  | nil => rfl
  | cons x rest ih =>
    have hx : id ≠ x := fun he => h (he ▸ List.mem_cons_self x rest)
    have hrest : id ∉ rest := fun hm => h (List.mem_cons_of_mem x hm)
    rw [pairEvents]
    simp [List.count_cons, ih hrest, hx]

/-- An id outside a list generates no queue-push events for it. -/
theorem pairEvents_count_push_zero (l : List String) (id : String)
    (h : id ∉ l) : (pairEvents l).count (SubmitEvent.queuePush id) = 0 := by
  induction l with
  | nil => rfl
  | cons x rest ih =>
    have hx : id ≠ x := fun he => h (he ▸ List.mem_cons_self x rest)
    have hrest : id ∉ rest := fun hm => h (List.mem_cons_of_mem x hm)
    rw [pairEvents]
    simp [List.count_cons, ih hrest, hx]

/-- Each id of a duplicate-free list gets exactly one store write. -/
theorem pairEvents_count_store (l : List String) (id : String)
    (h : id ∈ l) (hnd : l.Nodup) :
    (pairEvents l).count (SubmitEvent.storeWrite id) = 1 := by
  induction l with
  | nil => cases h
  | cons x rest ih =>
    rw [pairEvents]
    rcases List.mem_cons.mp h with rfl | hmem
    · have hnot : id ∉ rest := (List.nodup_cons.mp hnd).1
      simp [List.count_cons, pairEvents_count_store_zero rest id hnot]
    · have hx : id ≠ x := by
        intro he
        exact (List.nodup_cons.mp hnd).1 (he ▸ hmem)
      simp [List.count_cons, ih hmem (List.nodup_cons.mp hnd).2, hx]

/-- Each id of a duplicate-free list gets exactly one queue push. -/
theorem pairEvents_count_push (l : List String) (id : String)
    (h : id ∈ l) (hnd : l.Nodup) :
    (pairEvents l).count (SubmitEvent.queuePush id) = 1 := by
  induction l with
  | nil => cases h
  | cons x rest ih =>
    rw [pairEvents]
    rcases List.mem_cons.mp h with rfl | hmem
    · have hnot : id ∉ rest := (List.nodup_cons.mp hnd).1
      simp [List.count_cons, pairEvents_count_push_zero rest id hnot]
    · have hx : id ≠ x := by
        intro he
        exact (List.nodup_cons.mp hnd).1 (he ▸ hmem)
      simp [List.count_cons, ih hmem (List.nodup_cons.mp hnd).2, hx]

/-- In the canonical trace, every queue push is preceded by the store write
of the same id. -/
theorem pairEvents_store_before_push (l : List String) (id : String) :
    ∀ pre post, pairEvents l = pre ++ SubmitEvent.queuePush id :: post →
      SubmitEvent.storeWrite id ∈ pre := by
  induction l with
  | nil =>
    intro pre post h
    rw [pairEvents] at h
    cases pre <;> simp at h
  | cons x rest ih =>
    intro pre post h
    rw [pairEvents] at h
    cases pre with
    | nil => simp at h
    | cons e1 pre1 =>
      rw [List.cons_append] at h
      injection h with h1 h2
      cases pre1 with
      | nil =>
        rw [List.nil_append] at h2
        injection h2 with h3 h4
        have hxid : x = id := by
          injection h3
        rw [← h1, hxid]
        exact List.mem_cons_self _ _
      | cons e2 pre2 =>
        rw [List.cons_append] at h2
        injection h2 with h3 h4
        have := ih pre2 post h4
        exact List.mem_cons_of_mem _ (List.mem_cons_of_mem _ this)

/-- C7: a submitted batch performs, per image, exactly one store write of a
pending job record and exactly one queue push, the write strictly before the
push of the same id, and the response is the fresh jobId list in input
order. -/
theorem analyzeAsync_store_then_queue (st : Store) (q : List Job)
    (files : List FileUpload) (ids : List String) (media : FileUpload → String)
    (ctx : Ctx) (now : Nat)
    (hlen : files.length ≤ ids.length)
    (hnd : (ids.take files.length).Nodup) :
    (analyzeAsync st q files ids media ctx now).response =
      SubmitResponse.success (ids.take files.length) ∧
    (analyzeAsync st q files ids media ctx now).events =
      pairEvents (ids.take files.length) ∧
    (∀ id ∈ ids.take files.length,
      (analyzeAsync st q files ids media ctx now).events.count
        (SubmitEvent.storeWrite id) = 1 ∧
      (analyzeAsync st q files ids media ctx now).events.count
        (SubmitEvent.queuePush id) = 1 ∧
      ∃ jb : Job,
        (analyzeAsync st q files ids media ctx now).store.jobs id = some jb ∧
        jb.status = JobStatus.pending) ∧
    (∀ id pre post,
      (analyzeAsync st q files ids media ctx now).events =
        pre ++ SubmitEvent.queuePush id :: post →
      SubmitEvent.storeWrite id ∈ pre) := by
  obtain ⟨hj, he⟩ :=
    analyzeAsyncLoop_jobIds_events files st q ids media ctx now hlen
  refine ⟨?_, ?_, ?_, ?_⟩
  · show SubmitResponse.success
      (analyzeAsyncLoop st q files ids media ctx now).jobIds = _
    rw [hj]
  · exact he
  · intro id hid
    refine ⟨?_, ?_, ?_⟩
    · show (analyzeAsyncLoop st q files ids media ctx now).events.count _ = 1
      rw [he]
      exact pairEvents_count_store _ id hid hnd
    · show (analyzeAsyncLoop st q files ids media ctx now).events.count _ = 1
      rw [he]
      exact pairEvents_count_push _ id hid hnd
    · obtain ⟨jb, hjb, hst, -, -⟩ :=
        analyzeAsyncLoop_store_pending files st q ids media ctx now id hnd hid
      exact ⟨jb, hjb, hst⟩
  · intro id pre post hsplit
    apply pairEvents_store_before_push (ids.take files.length) id pre post
    rw [← he]
    exact hsplit

/-- Witness for C7: one image, one fresh id. -/
theorem analyzeAsync_store_then_queue_witness :
    ([witnessFile].length ≤ ["id-1"].length ∧
      (["id-1"].take [witnessFile].length).Nodup) ∧
    ((analyzeAsync witnessStore [] [witnessFile] ["id-1"] witnessMedia
        witnessCtx 5).response =
      SubmitResponse.success (["id-1"].take [witnessFile].length) ∧
    (analyzeAsync witnessStore [] [witnessFile] ["id-1"] witnessMedia
        witnessCtx 5).events =
      pairEvents (["id-1"].take [witnessFile].length) ∧
    (∀ id ∈ ["id-1"].take [witnessFile].length,
      (analyzeAsync witnessStore [] [witnessFile] ["id-1"] witnessMedia
          witnessCtx 5).events.count (SubmitEvent.storeWrite id) = 1 ∧
      (analyzeAsync witnessStore [] [witnessFile] ["id-1"] witnessMedia
          witnessCtx 5).events.count (SubmitEvent.queuePush id) = 1 ∧
      ∃ jb : Job,
        (analyzeAsync witnessStore [] [witnessFile] ["id-1"] witnessMedia
            witnessCtx 5).store.jobs id = some jb ∧
        jb.status = JobStatus.pending) ∧
    (∀ id pre post,
      (analyzeAsync witnessStore [] [witnessFile] ["id-1"] witnessMedia
          witnessCtx 5).events =
        pre ++ SubmitEvent.queuePush id :: post →
      SubmitEvent.storeWrite id ∈ pre)) :=
  ⟨⟨by decide, by decide⟩,
   analyzeAsync_store_then_queue witnessStore [] [witnessFile] ["id-1"]
     witnessMedia witnessCtx 5 (by decide) (by decide)⟩

/-- C9 counterexample: a submission with no images is not rejected - the
handler's loop body never runs, so the endpoint responds with the success
response `{jobs: []}` (HTTP 200), leaving store and queue untouched.  The
claim's "no job is created, stored, or queued" part holds, but the request
is accepted, not rejected. -/
theorem empty_submission_accepted_counterexample :
    analyzeAsync emptyStore [] [] ["unused-id"] witnessMedia witnessCtx 0 =
      { store := emptyStore, queue := [],
        response := SubmitResponse.success [], events := [] } := rfl

/-- C9 amended: for every submission request that supplies no images, the
endpoint accepts the request and responds successfully with an empty jobId
list; no job is created, stored, or queued. -/
theorem empty_submission_no_writes (st : Store) (q : List Job)
    (ids : List String) (media : FileUpload → String) (ctx : Ctx) (now : Nat) :
    analyzeAsync st q [] ids media ctx now =
      { store := st, queue := q,
        response := SubmitResponse.success [], events := [] } := rfl

/-! ## Invariant preservation (C8) -/

/-- The submission loop never writes results. -/
theorem analyzeAsyncLoop_results (files : List FileUpload) :
    ∀ (st : Store) (q : List Job) (ids : List String)
      (media : FileUpload → String) (ctx : Ctx) (now : Nat) (k : String),
    (analyzeAsyncLoop st q files ids media ctx now).store.results k =
      st.results k := by
  induction files with
  | nil => intro st q ids media ctx now k; rfl
  | cons f fs ih =>
    intro st q ids media ctx now k
    cases ids with
    | nil => rfl
    | cons i rest =>
      simp only [analyzeAsyncLoop]
      rw [ih _ _ rest media ctx now k, setJob_results]

/-- The submission loop preserves the result-iff-terminal invariant when the
consumed ids have no result records yet. -/
theorem analyzeAsyncLoop_resultIff (files : List FileUpload) :
    ∀ (st : Store) (q : List Job) (ids : List String)
      (media : FileUpload → String) (ctx : Ctx) (now : Nat),
    resultIffTerminal st →
    (∀ id ∈ ids, st.results id = none) →
    resultIffTerminal (analyzeAsyncLoop st q files ids media ctx now).store := by
  induction files with
  | nil => intro st q ids media ctx now h _; exact h
  | cons f fs ih =>
    intro st q ids media ctx now h hfr
    cases ids with
    | nil => exact h
    | cons i rest =>
      simp only [analyzeAsyncLoop]
      apply ih _ _ rest media ctx now ?_ ?_
      · intro id
        rw [setJob_results, setJob_jobs]
        by_cases hk : id = i
        · subst hk
          rw [if_pos rfl, hfr id (List.mem_cons_self _ _)]
          constructor
          · intro habs
            exact absurd habs (by simp)
          · rintro ⟨j, hj, hstat⟩
            injection hj with hj2
            exact absurd (by rw [← hj2]) hstat
        · rw [if_neg hk]
          exact h id
      · intro id hid
        rw [setJob_results]
        exact hfr id (List.mem_cons_of_mem _ hid)

/-- The submission loop keeps every queued job backed by a store record. -/
theorem analyzeAsyncLoop_queueBacked (files : List FileUpload) :
    ∀ (st : Store) (q : List Job) (ids : List String)
      (media : FileUpload → String) (ctx : Ctx) (now : Nat),
    (∀ jd ∈ q, ∃ j, st.jobs jd.jobId = some j) →
    ∀ jd ∈ (analyzeAsyncLoop st q files ids media ctx now).queue,
      ∃ j, (analyzeAsyncLoop st q files ids media ctx now).store.jobs jd.jobId =
        some j := by
  induction files with
  | nil =>
    intro st q ids media ctx now hq jd hmem
    exact hq jd hmem
  | cons f fs ih =>
    intro st q ids media ctx now hq jd hmem
    cases ids with
    | nil => exact hq jd hmem
    | cons i rest =>
      simp only [analyzeAsyncLoop] at hmem ⊢
      refine ih _ _ rest media ctx now ?_ jd hmem
      intro jd2 hmem2
      rcases List.mem_append.mp hmem2 with hold | hnew
      · obtain ⟨j, hj⟩ := hq jd2 hold
        rw [setJob_jobs]
        by_cases hk : jd2.jobId = i
        · exact ⟨_, by rw [if_pos hk]⟩
        · exact ⟨j, by rw [if_neg hk, hj]⟩
      · rw [List.mem_singleton] at hnew
        subst hnew
        exact ⟨_, by rw [setJob_jobs, if_pos rfl]⟩

/-- Both step kinds preserve the system invariant. -/
theorem step_preserves_inv (s s' : Sys) (hstep : Step s s')
    (hinv : SysInv s) : SysInv s' := by
  obtain ⟨hres, hqb⟩ := hinv
  cases hstep with
  | submit files ids media ctx now hnd hfresh =>
    constructor
    · exact analyzeAsyncLoop_resultIff files s.store s.queue ids media ctx now
        hres (fun id hid => (hfresh id hid).2)
    · intro jd hmem
      exact analyzeAsyncLoop_queueBacked files s.store s.queue ids media ctx now
        hqb jd hmem
  | work jd rest o now hq =>
    obtain ⟨j, hj⟩ := hqb jd (by rw [hq]; exact List.mem_cons_self _ _)
    obtain ⟨-, r, j', -, hcase, hresk, hjobsk⟩ := processJob_spec s.store jd o now j hj
    constructor
    · intro id
      show ((processJob s.store jd o now).1.results id).isSome = true ↔ _
      rw [hresk id, hjobsk id]
      by_cases hk : id = jd.jobId
      · rw [if_pos hk, if_pos hk]
        constructor
        · intro _
          refine ⟨j', rfl, ?_⟩
          rcases hcase with ⟨v, -, -, -, hs⟩ | ⟨-, -, -, hs⟩ <;> rw [hs] <;> decide
        · intro _
          rfl
      · rw [if_neg hk, if_neg hk]
        exact hres id
    · intro jd2 hmem
      have hmem2 : jd2 ∈ s.queue := by
        rw [hq]
        exact List.mem_cons_of_mem _ hmem
      obtain ⟨j2, hj2⟩ := hqb jd2 hmem2
      show ∃ jx, (processJob s.store jd o now).1.jobs jd2.jobId = some jx
      rw [hjobsk jd2.jobId]
      by_cases hk : jd2.jobId = jd.jobId
      · exact ⟨j', by rw [if_pos hk]⟩
      · exact ⟨j2, by rw [if_neg hk, hj2]⟩

/-- The initial state satisfies the invariant. -/
theorem sysInit_inv : SysInv sysInit := by
  constructor
  · intro id
    constructor
    · intro h
      exact absurd h (by simp [sysInit, emptyStore])
    · rintro ⟨j, hj, -⟩
      exact absurd hj (by simp [sysInit, emptyStore])
  · intro jd hmem
    exact absurd hmem (by simp [sysInit])

/-- Every reachable state satisfies the invariant. -/
theorem reachable_inv (s : Sys) (h : Reachable s) : SysInv s := by
  induction h with
  | refl => exact sysInit_inv
  | tail _ hstep ih => exact step_preserves_inv _ _ hstep ih

/-- C8: in every state reachable by the submission and worker step relation,
a result record exists for a jobId exactly when that job's stored status has
left `pending` (is completed or failed). -/
theorem reachable_result_iff_terminal (s : Sys) (h : Reachable s) (id : String) :
    (s.store.results id).isSome = true ↔
    ∃ j, s.store.jobs id = some j ∧ j.status ≠ JobStatus.pending :=
  (reachable_inv s h).1 id

/-- Witness for C8: the initial state is reachable, and there the equivalence
is checked at a concrete id. -/
theorem reachable_result_iff_terminal_witness :
    Reachable sysInit ∧
    ((sysInit.store.results "job-a").isSome = true ↔
      ∃ j, sysInit.store.jobs "job-a" = some j ∧
        j.status ≠ JobStatus.pending) :=
  ⟨Relation.ReflTransGen.refl,
   reachable_result_iff_terminal sysInit Relation.ReflTransGen.refl "job-a"⟩

end Chiveit
